import Mathlib

/-!
Verification development for the keypop-calypso-crypto-symmetric-cpp-api
repository: a header-only C++ API describing the symmetric-key cryptographic
services a Calypso terminal requires.

The repository contains interface declarations only.  Declaration-level facts
(declared exception kinds, setter return styles, the version string, the
exception constructors) are embedded directly from the headers.  The behaviour
of the secure-session crypto engine, whose implementation is not part of the
repository, is modelled from the specification; such definitions carry a doc
comment starting with "Modelled from the spec:".
-/

set_option autoImplicit false

/-! ## Declared error taxonomy (from the headers) -/

/-- The exception kinds that appear in the throw clauses of the headers. -/
inductive ThrowKind where
  | symmetricCryptoException
  | symmetricCryptoIOException
  | illegalStateException
deriving DecidableEq, Repr

/-- The operations declared by the API: the factory interface
SymmetricCryptoCardTransactionManagerFactorySpi and the transaction-manager
interface SymmetricCryptoCardTransactionManagerSpi. -/
inductive ApiOperation where
  | isExtendedModeSupported
  | getMaxCardApduLengthSupported
  | preInitTerminalSessionContext
  | createCardTransactionManager
  | initTerminalSecureSessionContext
  | initTerminalSessionMac
  | updateTerminalSessionMac
  | finalizeTerminalSessionMac
  | generateTerminalSessionMac
  | activateEncryption
  | deactivateEncryption
  | isCardSessionMacValid
  | computeSvCommandSecurityData
  | isCardSvMacValid
  | cipherPinForPresentation
  | cipherPinForModification
  | generateCipheredCardKey
  | synchronize
deriving DecidableEq, Repr

/-- The exception kinds each operation declares in its documentation
(@throw clauses), transcribed from
SymmetricCryptoCardTransactionManagerFactorySpi.hpp and
SymmetricCryptoCardTransactionManagerSpi.hpp. -/
def declaredThrows : ApiOperation → List ThrowKind
  | .isExtendedModeSupported => []
  | .getMaxCardApduLengthSupported => []
  | .preInitTerminalSessionContext =>
      [.symmetricCryptoException, .symmetricCryptoIOException]
  | .createCardTransactionManager => [.illegalStateException]
  | .initTerminalSecureSessionContext =>
      [.symmetricCryptoException, .symmetricCryptoIOException]
  | .initTerminalSessionMac =>
      [.symmetricCryptoException, .symmetricCryptoIOException]
  | .updateTerminalSessionMac =>
      [.symmetricCryptoException, .symmetricCryptoIOException]
  | .finalizeTerminalSessionMac =>
      [.symmetricCryptoException, .symmetricCryptoIOException]
  | .generateTerminalSessionMac =>
      [.symmetricCryptoException, .symmetricCryptoIOException]
  | .activateEncryption =>
      [.symmetricCryptoException, .symmetricCryptoIOException]
  | .deactivateEncryption =>
      [.symmetricCryptoException, .symmetricCryptoIOException]
  | .isCardSessionMacValid =>
      [.symmetricCryptoException, .symmetricCryptoIOException]
  | .computeSvCommandSecurityData =>
      [.symmetricCryptoException, .symmetricCryptoIOException]
  | .isCardSvMacValid =>
      [.symmetricCryptoException, .symmetricCryptoIOException]
  | .cipherPinForPresentation =>
      [.symmetricCryptoException, .symmetricCryptoIOException]
  | .cipherPinForModification =>
      [.symmetricCryptoException, .symmetricCryptoIOException]
  | .generateCipheredCardKey =>
      [.symmetricCryptoException, .symmetricCryptoIOException]
  | .synchronize =>
      [.symmetricCryptoException, .symmetricCryptoIOException]

/-! ## SymmetricCryptoIOException (from SymmetricCryptoIOException.hpp) -/

/-- The state of a C++ std::exception base subobject.  The standard base class
stores no user data beyond its implementation-defined what() text; copying it
copies only this subobject. -/
structure StdException where
  whatText : String
deriving DecidableEq, Repr

/-- The std::exception() default constructor. -/
def StdException.defaultCtor : StdException := ⟨""⟩

/-- A C++ exception object as seen through a std::shared_ptr of the base:
the std::exception base subobject plus whatever information lives in the
derived part (message strings, nested causes, ...).  Slicing to the base
loses derivedPayload. -/
structure CppException where
  base : StdException
  derivedPayload : String
deriving DecidableEq, Repr

/-- SymmetricCryptoIOException privately derives from std::exception and adds
no member of its own: its entire state is the base subobject. -/
structure SymmetricCryptoIOException where
  base : StdException
deriving DecidableEq, Repr

/-- The one-argument constructor, transcribed from the header:
it delegates to std::exception() and discards the message via (void)message. -/
def mkSymmetricCryptoIOException (message : String) : SymmetricCryptoIOException :=
  let _ := message
  { base := StdException.defaultCtor }

/-- The two-argument constructor, transcribed from the header: it initializes
the base with std::exception(*cause) — the cause sliced to its std::exception
base subobject — and discards the message via (void)message.  No reference to
the cause object itself is stored. -/
def mkSymmetricCryptoIOExceptionWithCause (message : String)
    (cause : CppException) : SymmetricCryptoIOException :=
  let _ := message
  { base := cause.base }

/-! ## SvCommandSecurityDataApi setter declarations (from the header) -/

/-- The four mutable setters of SvCommandSecurityDataApi. -/
inductive SvSetter where
  | setSerialNumber
  | setTransactionNumber
  | setTerminalChallenge
  | setTerminalSvMac
deriving DecidableEq, Repr

/-- Return style of a C++ member function declaration: returning a reference
to the current object, or returning an object by value (a copy, not the
current instance). -/
inductive CppReturnStyle where
  | selfReference
  | byValueCopy
deriving DecidableEq, Repr

/-- The declared return type of each setter, transcribed from
SvCommandSecurityDataApi.hpp: setSerialNumber and setTransactionNumber return
SvCommandSecurityDataApi& (a reference), while setTerminalChallenge and
setTerminalSvMac are declared to return SvCommandSecurityDataApi by value. -/
def setterReturnStyle : SvSetter → CppReturnStyle
  | .setSerialNumber => .selfReference
  | .setTransactionNumber => .selfReference
  | .setTerminalChallenge => .byValueCopy
  | .setTerminalSvMac => .byValueCopy

/-! ## Version surface (from SymmetricCryptoApiProperties.hpp and the test) -/

/-- The exposed API version string, from SymmetricCryptoApiProperties.hpp. -/
def SymmetricCryptoApiProperties_VERSION : String := "0.1"

/-- Drops the maximal leading run of decimal digits from a character list. -/
def dropDigits : List Char → List Char
  | [] => []
  | c :: cs => if c.isDigit then dropDigits cs else c :: cs

/-- Anchored matcher for the character lists accepted by the ECMAScript
pattern used in the repository test: one or more decimal digits, a literal
dot, then one or more decimal digits, consuming the whole input. -/
def matchVersionChars (cs : List Char) : Bool :=
  match cs with
  | [] => false
  | c :: _ =>
    c.isDigit &&
    (match dropDigits cs with
     | '.' :: rest =>
       (match rest with
        | [] => false
        | r :: _ => r.isDigit && dropDigits rest = [])
     | _ => false)

/-- Full match of the version string against the test's regex, as
std::regex_match does (the whole string must match). -/
def matchesVersionPattern (s : String) : Bool :=
  matchVersionChars s.toList

/-! ## Secure Session Crypto Engine (modelled from the spec) -/

/-- Modelled from the spec: the two failure kinds of the error taxonomy, plus
the illegal-state condition the factory reports when extended mode is
requested but unsupported. -/
inductive ApiError where
  | internalError
  | ioError
  | illegalState
deriving DecidableEq, Repr

/-- True exactly on the error branch of an Except value. -/
def isErr {α : Type} : Except ApiError α → Bool
  | .error _ => true
  | .ok _ => false

/-- Modelled from the spec: the SV Security Data bundle of
SvCommandSecurityDataApi — the read-only SV Get request/response and partial
command request, and the mutable fields set before computation. -/
structure SvCommandSecurityData where
  svGetRequest : List Nat
  svGetResponse : List Nat
  svCommandPartialRequest : List Nat
  serialNumber : List Nat
  transactionNumber : List Nat
  terminalChallenge : List Nat
  terminalSvMac : List Nat
deriving DecidableEq, Repr

/-- Modelled from the spec: the ephemeral per-transaction Session Context of
the secure-session crypto engine, whose implementation is not part of this
repository.  Holds the card key diversifier, the extended-mode flag, the KIF
and KVC, the terminal challenge, the accumulated digest state (the ordered
list of byte blocks fed in), the encryption-active flag, the digest lifecycle
flags, the transaction audit data and the SV data installed by
computeSvCommandSecurityData. -/
structure SessionState where
  cardKeyDiversifier : List Nat
  extendedMode : Bool
  kif : Nat
  kvc : Nat
  terminalChallenge : List Nat
  sessionOpen : Bool
  digestStarted : Bool
  digestFinalized : Bool
  encryptionActive : Bool
  digest : List (List Nat)
  transactionAuditData : List (List Nat)
  svData : Option SvCommandSecurityData
deriving DecidableEq, Repr

/-- Modelled from the spec: the factory
SymmetricCryptoCardTransactionManagerFactorySpi.  It reports whether extended
mode is supported and the maximal card APDU length it supports, which its
documentation guarantees to be a positive value. -/
structure SymmetricCryptoCardTransactionManagerFactorySpi where
  extendedModeSupported : Bool
  maxCardApduLengthSupported : Nat
  maxCardApduLength_pos : 0 < maxCardApduLengthSupported

/-- The factory predicate isExtendedModeSupported. -/
def isExtendedModeSupported
    (f : SymmetricCryptoCardTransactionManagerFactorySpi) : Bool :=
  f.extendedModeSupported

/-- The factory accessor getMaxCardApduLengthSupported. -/
def getMaxCardApduLengthSupported
    (f : SymmetricCryptoCardTransactionManagerFactorySpi) : Nat :=
  f.maxCardApduLengthSupported

/-- Modelled from the spec: createCardTransactionManager validates
extended-mode support first — it fails with the illegal-state condition if
extended mode is requested but unsupported, before any Session Context is
created — and otherwise returns a fresh uninitialized Session Context
recording the card key diversifier and the audit-data collaborator. -/
def createCardTransactionManager
    (f : SymmetricCryptoCardTransactionManagerFactorySpi)
    (cardKeyDiversifier : List Nat) (useExtendedMode : Bool)
    (transactionAuditData : List (List Nat)) :
    Except ApiError SessionState :=
  if useExtendedMode && !f.extendedModeSupported then
    .error .illegalState
  else
    .ok
      { cardKeyDiversifier := cardKeyDiversifier
        extendedMode := useExtendedMode
        kif := 0
        kvc := 0
        terminalChallenge := []
        sessionOpen := false
        digestStarted := false
        digestFinalized := false
        encryptionActive := false
        digest := []
        transactionAuditData := transactionAuditData
        svData := none }

/-- Modelled from the spec: initTerminalSecureSessionContext generates a
fresh terminal challenge and transitions the context from Uninitialized to
SessionOpen, returning the challenge.  The freshness source is external to
the engine, so the fresh challenge is an explicit input of the model: the
engine has no other source of randomness. -/
def initTerminalSecureSessionContext (s : SessionState)
    (freshChallenge : List Nat) :
    Except ApiError (SessionState × List Nat) :=
  if s.sessionOpen then .error .internalError
  else
    .ok ({ s with sessionOpen := true, terminalChallenge := freshChallenge },
      freshChallenge)

/-- Modelled from the spec: initTerminalSessionMac seeds the digest
accumulator with the card's Open Secure Session response data and stores the
card KIF and KVC; the digest must not already be started. -/
def initTerminalSessionMac (s : SessionState)
    (openSecureSessionDataOut : List Nat) (kif kvc : Nat) :
    Except ApiError SessionState :=
  if !s.sessionOpen || s.digestStarted then .error .internalError
  else
    .ok { s with
          digestStarted := true
          kif := kif
          kvc := kvc
          digest := [openSecureSessionDataOut] }

/-- Modelled from the spec: the keyed byte transformation applied to an APDU
when encryption is active.  The algorithm itself is implementation-defined;
the model fixes a concrete deterministic keyed transformation of the session
key material. -/
def cipherApdu (s : SessionState) (cardApdu : List Nat) : List Nat :=
  cardApdu.map (fun b => (b + s.kif * 2 + s.kvc * 3 + 1) % 256)

/-- Modelled from the spec: updateTerminalSessionMac feeds one APDU's bytes
into the digest accumulator; when encryption is not active it returns no
data, and when encryption is active it additionally returns the
ciphered/deciphered command data.  The digest must be started. -/
def updateTerminalSessionMac (s : SessionState) (cardApdu : List Nat) :
    Except ApiError (SessionState × Option (List Nat)) :=
  if !s.digestStarted then .error .internalError
  else
    let s1 := { s with digest := s.digest ++ [cardApdu] }
    if s.encryptionActive then .ok (s1, some (cipherApdu s cardApdu))
    else .ok (s1, none)

/-- Modelled from the spec: the session MAC length — extended mode affects
the MAC length: 8 bytes in extended mode, 4 bytes otherwise. -/
def macLength (extendedMode : Bool) : Nat :=
  if extendedMode then 8 else 4

/-- Modelled from the spec: the deterministic finalization of the digest
accumulator into the terminal session MAC.  The concrete compression is
implementation-defined; the model folds the key material, the terminal
challenge and the accumulated digest blocks into an accumulator and emits
macLength bytes. -/
def macCompute (s : SessionState) : List Nat :=
  let seed :=
    s.terminalChallenge.foldl (fun a b => (a * 31 + b + 1) % 4294967296)
      (s.kif * 256 + s.kvc + 7)
  let acc :=
    s.digest.foldl
      (fun a blk => blk.foldl (fun x b => (x * 33 + b + 5) % 4294967296) (a + 11))
      seed
  (List.range (macLength s.extendedMode)).map (fun i => (acc / 256 ^ i) % 256)

/-- Modelled from the spec: finalizeTerminalSessionMac finalizes the digest
computation and returns the terminal part of the session MAC; the digest must
be started. -/
def finalizeTerminalSessionMac (s : SessionState) :
    Except ApiError (SessionState × List Nat) :=
  if !s.digestStarted then .error .internalError
  else .ok ({ s with digestFinalized := true }, macCompute s)

/-- Modelled from the spec: isCardSessionMacValid compares the supplied card
session MAC against the value the engine itself computes from the digest
history.  A mismatch is a normal boolean outcome; an error is raised only for
genuine computation faults — a malformed input length, or the digest not
being finalized. -/
def isCardSessionMacValid (s : SessionState) (cardSessionMac : List Nat) :
    Except ApiError Bool :=
  if !s.digestFinalized then .error .internalError
  else if cardSessionMac.length ≠ macLength s.extendedMode then
    .error .internalError
  else .ok (decide (cardSessionMac = macCompute s))

/-- Modelled from the spec: the SV MAC length. -/
def svMacLength : Nat := 3

/-- Modelled from the spec: the deterministic computation of the expected
card SV MAC from the SV Security Data.  The concrete compression is
implementation-defined; the model folds all fields into an accumulator and
emits svMacLength bytes. -/
def svMacCompute (d : SvCommandSecurityData) : List Nat :=
  let acc :=
    (d.svGetRequest ++ d.svGetResponse ++ d.svCommandPartialRequest ++
        d.serialNumber ++ d.transactionNumber ++ d.terminalChallenge).foldl
      (fun a b => (a * 37 + b + 3) % 4294967296) 13
  (List.range svMacLength).map (fun i => (acc / 256 ^ i) % 256)

/-- Modelled from the spec: the terminal SV MAC the engine places into the
SV Security Data. -/
def svTerminalMacCompute (d : SvCommandSecurityData) : List Nat :=
  (List.range svMacLength).map
    (fun i =>
      ((d.svGetResponse.foldl (fun a b => (a * 41 + b + 9) % 4294967296) 17) /
          256 ^ i) % 256)

/-- Modelled from the spec: computeSvCommandSecurityData uses the SV Security
Data fields already populated by the caller to compute the SV command
security payload, mutating the structure in place (the terminal SV MAC field)
and recording the data in the session for the later SV MAC verification; the
session must be open. -/
def computeSvCommandSecurityData (s : SessionState)
    (data : SvCommandSecurityData) :
    Except ApiError (SessionState × SvCommandSecurityData) :=
  if !s.sessionOpen then .error .internalError
  else
    let d1 := { data with terminalSvMac := svTerminalMacCompute data }
    .ok ({ s with svData := some d1 }, d1)

/-- Modelled from the spec: isCardSvMacValid verifies the card's SV MAC
against the value expected from the SV Security Data installed by
computeSvCommandSecurityData.  A mismatch is a normal boolean outcome; an
error is raised only for genuine computation faults — calling it before
computeSvCommandSecurityData, or a malformed input length. -/
def isCardSvMacValid (s : SessionState) (cardSvMac : List Nat) :
    Except ApiError Bool :=
  match s.svData with
  | none => .error .internalError
  | some d =>
    if cardSvMac.length ≠ svMacLength then .error .internalError
    else .ok (decide (cardSvMac = svMacCompute d))

/-- Flips bit i of the byte at position j of a byte sequence. -/
def flipBit (m : List Nat) (j i : Nat) : List Nat :=
  m.set j (m.getD j 0 ^^^ 2 ^ i)

/-- Modelled from the spec: one complete deterministic MAC run of the engine —
create the context, open the secure session with the given fresh challenge,
seed the digest, feed a fixed sequence of APDUs, finalize.  Every input of
the run is an explicit argument; the engine keeps no other state. -/
def runMacSequence (f : SymmetricCryptoCardTransactionManagerFactorySpi)
    (cardKeyDiversifier : List Nat) (useExtendedMode : Bool)
    (transactionAuditData : List (List Nat)) (freshChallenge : List Nat)
    (openSecureSessionDataOut : List Nat) (kif kvc : Nat)
    (cardApdus : List (List Nat)) :
    Except ApiError (SessionState × List Nat) := do
  let s0 ← createCardTransactionManager f cardKeyDiversifier useExtendedMode
    transactionAuditData
  let (s1, _) ← initTerminalSecureSessionContext s0 freshChallenge
  let s2 ← initTerminalSessionMac s1 openSecureSessionDataOut kif kvc
  let s3 ← cardApdus.foldlM
    (fun s a => do
      let (s', _) ← updateTerminalSessionMac s a
      pure s')
    s2
  finalizeTerminalSessionMac s3

/-! ## Concrete sample data used by the witnesses -/

/-- A session context whose digest has been started and fed two APDUs. -/
def sampleStartedState : SessionState :=
  { cardKeyDiversifier := [1]
    extendedMode := false
    kif := 3
    kvc := 4
    terminalChallenge := [1, 2]
    sessionOpen := true
    digestStarted := true
    digestFinalized := false
    encryptionActive := false
    digest := [[2], [5]]
    transactionAuditData := []
    svData := none }

/-- The sample context after finalizeTerminalSessionMac. -/
def sampleFinalizedState : SessionState :=
  { sampleStartedState with digestFinalized := true }

/-- A sample SV Security Data bundle. -/
def sampleSvData : SvCommandSecurityData :=
  { svGetRequest := [1]
    svGetResponse := [2]
    svCommandPartialRequest := [3]
    serialNumber := [4]
    transactionNumber := [5]
    terminalChallenge := [6]
    terminalSvMac := [] }

/-- A finalized sample context with SV data installed. -/
def sampleFinalState : SessionState :=
  { sampleStartedState with digestFinalized := true, svData := some sampleSvData }

/-- A sample factory supporting extended mode. -/
def sampleFactory : SymmetricCryptoCardTransactionManagerFactorySpi :=
  { extendedModeSupported := true
    maxCardApduLengthSupported := 250
    maxCardApduLength_pos := by decide }

/-- A sample factory configured without extended-mode support. -/
def sampleBasicFactory : SymmetricCryptoCardTransactionManagerFactorySpi :=
  { extendedModeSupported := false
    maxCardApduLengthSupported := 250
    maxCardApduLength_pos := by decide }

/-! ## Helper lemmas -/

theorem xor_two_pow_ne (n i : Nat) : n ^^^ 2 ^ i ≠ n := by
  intro h
  have h2 : n ^^^ (n ^^^ 2 ^ i) = n ^^^ n := congrArg (n ^^^ ·) h
  rw [← Nat.xor_assoc, Nat.xor_self, Nat.zero_xor] at h2
  exact absurd h2 (Nat.pos_iff_ne_zero.mp (Nat.pos_pow_of_pos i (by decide)))

theorem flipBit_length (m : List Nat) (j i : Nat) :
    (flipBit m j i).length = m.length := by
  simp [flipBit]

theorem flipBit_ne (m : List Nat) (j i : Nat) (h : j < m.length) :
    flipBit m j i ≠ m := by
  intro heq
  have hq : (flipBit m j i)[j]? = m[j]? := by rw [heq]
  simp only [flipBit] at hq
  rw [List.getElem?_set_eq_of_lt _ h, List.getD_eq_getElem m 0 h,
    List.getElem?_eq_getElem h] at hq
  exact xor_two_pow_ne (m[j]) i (Option.some.inj hq)

theorem macCompute_length (s : SessionState) :
    (macCompute s).length = macLength s.extendedMode := by
  simp [macCompute]

theorem macCompute_finalized (s : SessionState) :
    macCompute { s with digestFinalized := true } = macCompute s := rfl

theorem isDigit_count_dot_zero (ds : List Char)
    (hall : ∀ c ∈ ds, c.isDigit = true) : List.count '.' ds = 0 := by
  refine List.count_eq_zero.mpr ?_
  intro hmem
  exact absurd (hall _ hmem) (by decide)

theorem dropDigits_decomp (cs : List Char) :
    ∃ ds, cs = ds ++ dropDigits cs ∧ ∀ c ∈ ds, c.isDigit = true := by
  induction cs with
  | nil => exact ⟨[], rfl, by simp⟩
  | cons c cs ih =>
    by_cases hc : c.isDigit = true
    · obtain ⟨ds, hds, hall⟩ := ih
      refine ⟨c :: ds, ?_, ?_⟩
      · simp only [dropDigits, hc, if_true, List.cons_append]
        rw [← hds]
      · intro x hx
        rcases List.mem_cons.mp hx with h1 | h1
        · rw [h1]; exact hc
        · exact hall x h1
    · refine ⟨[], ?_, by simp⟩
      simp [dropDigits, hc]

theorem matchVersionChars_shape (cs : List Char)
    (h : matchVersionChars cs = true) :
    List.count '.' cs = 1 ∧ ∀ c ∈ cs, c = '.' ∨ c.isDigit = true := by
  obtain ⟨ds1, hds1, hall1⟩ := dropDigits_decomp cs
  unfold matchVersionChars at h
  cases cs with
  | nil => simp at h
  | cons c0 cs0 =>
    rw [Bool.and_eq_true] at h
    obtain ⟨_, h2⟩ := h
    cases hdd : dropDigits (c0 :: cs0) with
    | nil => rw [hdd] at h2; simp at h2
    | cons d rest =>
      rw [hdd] at h2
      split at h2
      case h_2 => simp at h2
      case h_1 rest heqd =>
        obtain ⟨hd, hrest⟩ := List.cons.inj heqd
        cases rest with
        | nil => simp at h2
        | cons r rest2 =>
          rw [Bool.and_eq_true] at h2
          obtain ⟨hr, hrest2⟩ := h2
          have hrest0 : dropDigits (r :: rest2) = [] := of_decide_eq_true hrest2
          obtain ⟨ds2, hds2, hall2⟩ := dropDigits_decomp (r :: rest2)
          rw [hrest0, List.append_nil] at hds2
          rw [← hds2] at hall2
          have hcs2 : c0 :: cs0 = ds1 ++ '.' :: (r :: rest2) := by
            rw [hds1, hdd, hd, hrest]
          constructor
          · rw [hcs2, List.count_append, List.count_cons_self,
              isDigit_count_dot_zero ds1 hall1,
              isDigit_count_dot_zero (r :: rest2) hall2]
          · intro c hmem
            rw [hcs2] at hmem
            rcases List.mem_append.mp hmem with h1 | h1
            · exact Or.inr (hall1 c h1)
            · rcases List.mem_cons.mp h1 with h1 | h1
              · exact Or.inl h1
              · exact Or.inr (hall2 c h1)

/-! ## Claims -/

/-- Claim C9: the exposed API version string has the form major.minor with
major and minor consisting only of decimal digits and exactly one dot
separating them, so it matches the pattern d+\.d+ of the repository test; any
string accepted by that pattern has exactly one dot and only digit segments,
so any string without exactly one dot or with a non-digit segment fails the
match. -/
theorem version_string_wellformed :
    matchesVersionPattern SymmetricCryptoApiProperties_VERSION = true ∧
    ∀ s : String, matchesVersionPattern s = true →
      List.count '.' s.toList = 1 ∧ ∀ c ∈ s.toList, c = '.' ∨ c.isDigit = true :=
  ⟨by decide, fun s hs => matchVersionChars_shape s.toList hs⟩

/-- Witness for C9 at the concrete strings "0.1" and "3.4". -/
theorem version_string_wellformed_witness :
    matchesVersionPattern "3.4" = true ∧
    List.count '.' (String.toList "3.4") = 1 :=
  ⟨by decide, (version_string_wellformed.2 "3.4" (by decide)).1⟩

/-- Claim C10: getMaxCardApduLengthSupported returns a strictly positive
value for every factory instance, as its documentation requires. -/
theorem getMaxCardApduLengthSupported_pos
    (f : SymmetricCryptoCardTransactionManagerFactorySpi) :
    0 < getMaxCardApduLengthSupported f :=
  f.maxCardApduLength_pos

/-- Claim C7 fails on the code: the SymmetricCryptoIOException constructors
discard the message and slice the cause, so two constructions with different
messages (or with causes differing only in their derived part) produce
identical exception values — neither the message nor the nested cause can be
recovered. -/
theorem symmetricCryptoIOException_discards_diagnostics :
    mkSymmetricCryptoIOException "ctx-a" = mkSymmetricCryptoIOException "ctx-b" ∧
    ("ctx-a" : String) ≠ "ctx-b" ∧
    mkSymmetricCryptoIOExceptionWithCause "m" ⟨⟨"w"⟩, "cause-a"⟩ =
      mkSymmetricCryptoIOExceptionWithCause "m" ⟨⟨"w"⟩, "cause-b"⟩ ∧
    ("cause-a" : String) ≠ "cause-b" :=
  ⟨rfl, by decide, rfl, by decide⟩

/-- Claim C8 fails on the code: setSerialNumber and setTransactionNumber are
declared to return a reference to the current instance, but
setTerminalChallenge and setTerminalSvMac are declared to return
SvCommandSecurityDataApi by value — a copy, not a fluent self-reference. -/
theorem svSetter_return_styles :
    setterReturnStyle SvSetter.setSerialNumber = CppReturnStyle.selfReference ∧
    setterReturnStyle SvSetter.setTransactionNumber = CppReturnStyle.selfReference ∧
    setterReturnStyle SvSetter.setTerminalChallenge = CppReturnStyle.byValueCopy ∧
    setterReturnStyle SvSetter.setTerminalSvMac = CppReturnStyle.byValueCopy ∧
    CppReturnStyle.byValueCopy ≠ CppReturnStyle.selfReference := by
  decide

/-- Counterexample to claim C5 as stated: createCardTransactionManager
declares the illegal-state exception kind, which is neither the internal
crypto failure kind nor the IO failure kind, so a third error kind crosses
the API boundary. -/
theorem declaredThrows_counterexample :
    ThrowKind.illegalStateException ∈
      declaredThrows ApiOperation.createCardTransactionManager ∧
    ThrowKind.illegalStateException ≠ ThrowKind.symmetricCryptoException ∧
    ThrowKind.illegalStateException ≠ ThrowKind.symmetricCryptoIOException := by
  decide

/-- Claim C5 (amended): every operation of the API except
createCardTransactionManager declares only the two failure kinds — the
internal crypto failure kind and the IO failure kind; the factory operation
createCardTransactionManager additionally declares exactly the illegal-state
kind. -/
theorem declaredThrows_two_kinds (op : ApiOperation) (k : ThrowKind)
    (hop : op ≠ ApiOperation.createCardTransactionManager)
    (hk : k ∈ declaredThrows op) :
    k = ThrowKind.symmetricCryptoException ∨
      k = ThrowKind.symmetricCryptoIOException := by
  cases op <;> cases k <;> simp_all [declaredThrows]

/-- Witness for C5 (amended) at the synchronize operation and the internal
failure kind. -/
theorem declaredThrows_two_kinds_witness :
    ApiOperation.synchronize ≠ ApiOperation.createCardTransactionManager ∧
    ThrowKind.symmetricCryptoException ∈
      declaredThrows ApiOperation.synchronize ∧
    (ThrowKind.symmetricCryptoException = ThrowKind.symmetricCryptoException ∨
      ThrowKind.symmetricCryptoException = ThrowKind.symmetricCryptoIOException) :=
  ⟨by decide, by decide,
    declaredThrows_two_kinds ApiOperation.synchronize
      ThrowKind.symmetricCryptoException (by decide) (by decide)⟩

/-- Claim C2: two runs of the engine from identical terminal challenge and
key material that execute the identical call sequence — context creation,
initTerminalSecureSessionContext, initTerminalSessionMac, a fixed sequence of
updateTerminalSessionMac calls — end in the same digest state and
finalizeTerminalSessionMac returns the same output: the run is a function of
its explicit inputs only, with no hidden randomness beyond the initial
challenge. -/
theorem runMacSequence_deterministic
    (f g : SymmetricCryptoCardTransactionManagerFactorySpi)
    (d1 d2 : List Nat) (e1 e2 : Bool) (t1 t2 : List (List Nat))
    (ch1 ch2 od1 od2 : List Nat) (k1 k2 v1 v2 : Nat)
    (as1 as2 : List (List Nat))
    (hf : f = g) (hd : d1 = d2) (he : e1 = e2) (ht : t1 = t2)
    (hch : ch1 = ch2) (hod : od1 = od2) (hk : k1 = k2) (hv : v1 = v2)
    (ha : as1 = as2) :
    runMacSequence f d1 e1 t1 ch1 od1 k1 v1 as1 =
      runMacSequence g d2 e2 t2 ch2 od2 k2 v2 as2 := by
  subst hf hd he ht hch hod hk hv ha
  rfl

/-- Witness for C2 at a concrete run. -/
theorem runMacSequence_deterministic_witness :
    runMacSequence sampleFactory [1] false [] [7] [8] 3 4 [[9], [10]] =
      runMacSequence sampleFactory [1] false [] [7] [8] 3 4 [[9], [10]] :=
  runMacSequence_deterministic sampleFactory sampleFactory [1] [1] false false
    [] [] [7] [7] [8] [8] 3 3 4 4 [[9], [10]] [[9], [10]]
    rfl rfl rfl rfl rfl rfl rfl rfl rfl

/-- Claim C4: requesting extended mode from a factory configured without
extended-mode support fails with the illegal-state error before any Session
Context is created — no context is returned. -/
theorem createCardTransactionManager_failfast
    (f : SymmetricCryptoCardTransactionManagerFactorySpi)
    (d : List Nat) (t : List (List Nat))
    (h : f.extendedModeSupported = false) :
    createCardTransactionManager f d true t = .error .illegalState ∧
    ∀ ctx, createCardTransactionManager f d true t ≠ .ok ctx := by
  have h1 : createCardTransactionManager f d true t = .error .illegalState := by
    simp [createCardTransactionManager, h]
  refine ⟨h1, fun ctx hc => ?_⟩
  rw [h1] at hc
  exact Except.noConfusion hc

/-- Witness for C4 at a concrete factory without extended-mode support. -/
theorem createCardTransactionManager_failfast_witness :
    sampleBasicFactory.extendedModeSupported = false ∧
    createCardTransactionManager sampleBasicFactory [1] true [] =
      .error .illegalState ∧
    createCardTransactionManager sampleBasicFactory [1] true [] ≠
      .ok sampleStartedState :=
  ⟨rfl,
    (createCardTransactionManager_failfast sampleBasicFactory [1] [] rfl).1,
    (createCardTransactionManager_failfast sampleBasicFactory [1] [] rfl).2
      sampleStartedState⟩

/-- Claim C3: with the digest started, updateTerminalSessionMac feeds the
APDU bytes into the accumulator in every case; it returns no data when
encryption is not active, and returns the ciphered/deciphered command data
when encryption is active. -/
theorem updateTerminalSessionMac_spec (s : SessionState) (a : List Nat)
    (h : s.digestStarted = true) :
    (s.encryptionActive = false →
      updateTerminalSessionMac s a =
        .ok ({ s with digest := s.digest ++ [a] }, none)) ∧
    (s.encryptionActive = true →
      updateTerminalSessionMac s a =
        .ok ({ s with digest := s.digest ++ [a] },
          some (cipherApdu s a))) := by
  constructor <;> intro he <;> simp [updateTerminalSessionMac, h, he]

/-- Witness for C3 at a concrete non-encrypting started session. -/
theorem updateTerminalSessionMac_spec_witness :
    sampleStartedState.digestStarted = true ∧
    sampleStartedState.encryptionActive = false ∧
    updateTerminalSessionMac sampleStartedState [9] =
      .ok ({ sampleStartedState with
              digest := sampleStartedState.digest ++ [[9]] }, none) :=
  ⟨rfl, rfl, (updateTerminalSessionMac_spec sampleStartedState [9] rfl).1 rfl⟩

/-- Claim C6: when the MAC computation itself succeeds, the boolean
verification operations never raise an error for a mismatching MAC — a
mismatch of correct length yields the result false — and, with the digest
finalized and the SV data installed, they raise an error exactly for a
malformed input length (raises-iff). -/
theorem macValidators_mismatch_no_error (s : SessionState)
    (d : SvCommandSecurityData) (m mv x y : List Nat)
    (hfin : s.digestFinalized = true) (hsv : s.svData = some d)
    (hlen : m.length = macLength s.extendedMode) (hm : m ≠ macCompute s)
    (hlv : mv.length = svMacLength) (hmv : mv ≠ svMacCompute d) :
    isCardSessionMacValid s m = .ok false ∧
    isCardSvMacValid s mv = .ok false ∧
    isErr (isCardSessionMacValid s x) =
      decide (x.length ≠ macLength s.extendedMode) ∧
    isErr (isCardSvMacValid s y) = decide (y.length ≠ svMacLength) := by
  refine ⟨?_, ?_, ?_, ?_⟩
  · simp [isCardSessionMacValid, hfin, hlen, hm]
  · simp [isCardSvMacValid, hsv, hlv, hmv]
  · by_cases hx : x.length = macLength s.extendedMode <;>
      simp [isCardSessionMacValid, hfin, hx, isErr]
  · by_cases hy : y.length = svMacLength <;>
      simp [isCardSvMacValid, hsv, hy, isErr]

/-- Witness for C6 at a concrete finalized session with SV data installed. -/
theorem macValidators_mismatch_no_error_witness :
    sampleFinalState.digestFinalized = true ∧
    sampleFinalState.svData = some sampleSvData ∧
    isCardSessionMacValid sampleFinalState [0, 0, 0, 0] = .ok false ∧
    isCardSvMacValid sampleFinalState [0, 0, 0] = .ok false ∧
    isErr (isCardSessionMacValid sampleFinalState [1]) =
      decide (List.length [1] ≠ macLength sampleFinalState.extendedMode) :=
  ⟨rfl, rfl,
    (macValidators_mismatch_no_error sampleFinalState sampleSvData
      [0, 0, 0, 0] [0, 0, 0] [1] [2] rfl rfl (by decide) (by decide)
      (by decide) (by decide)).1,
    (macValidators_mismatch_no_error sampleFinalState sampleSvData
      [0, 0, 0, 0] [0, 0, 0] [1] [2] rfl rfl (by decide) (by decide)
      (by decide) (by decide)).2.1,
    (macValidators_mismatch_no_error sampleFinalState sampleSvData
      [0, 0, 0, 0] [0, 0, 0] [1] [2] rfl rfl (by decide) (by decide)
      (by decide) (by decide)).2.2.1⟩

/-- Claim C1: for a session whose digest has been finalized,
isCardSessionMacValid accepts a supplied card session MAC exactly when it
equals the value finalizeTerminalSessionMac produced from the identical
digest history, and it returns false on every input obtained from the
correct MAC by flipping a single bit. -/
theorem finalize_isCardSessionMacValid (s s1 : SessionState) (mac : List Nat)
    (hfin : finalizeTerminalSessionMac s = .ok (s1, mac)) (m : List Nat) :
    (isCardSessionMacValid s1 m = .ok true ↔ m = mac) ∧
    (∀ j i, j < mac.length → i < 8 →
      isCardSessionMacValid s1 (flipBit mac j i) = .ok false) := by
  unfold finalizeTerminalSessionMac at hfin
  split at hfin
  · exact absurd hfin (by simp)
  · have h12 := Except.ok.inj hfin
    have hs1 : s1 = { s with digestFinalized := true } :=
      (congrArg Prod.fst h12).symm
    have hmac : mac = macCompute s := (congrArg Prod.snd h12).symm
    subst hs1 hmac
    constructor
    · constructor
      · intro h
        by_cases hml : m.length = macLength s.extendedMode
        · simp [isCardSessionMacValid, hml, macCompute_finalized] at h
          exact h
        · simp [isCardSessionMacValid, hml, macCompute_finalized] at h
      · intro h
        subst h
        simp [isCardSessionMacValid, macCompute_length, macCompute_finalized]
    · intro j i hj _
      have hne : flipBit (macCompute s) j i ≠ macCompute s :=
        flipBit_ne (macCompute s) j i hj
      simp [isCardSessionMacValid, flipBit_length, macCompute_length,
        macCompute_finalized, hne]

/-- Witness for C1 at a concrete started session: the finalize output, its
acceptance, and the rejection of a one-bit mutation. -/
theorem finalize_isCardSessionMacValid_witness :
    finalizeTerminalSessionMac sampleStartedState =
      .ok (sampleFinalizedState, [179, 240, 152, 48]) ∧
    isCardSessionMacValid sampleFinalizedState [179, 240, 152, 48] =
      .ok true ∧
    isCardSessionMacValid sampleFinalizedState
      (flipBit [179, 240, 152, 48] 0 0) = .ok false :=
  ⟨rfl,
    (finalize_isCardSessionMacValid sampleStartedState sampleFinalizedState
      [179, 240, 152, 48] rfl [179, 240, 152, 48]).1.mpr rfl,
    (finalize_isCardSessionMacValid sampleStartedState sampleFinalizedState
      [179, 240, 152, 48] rfl [0]).2 0 0 (by decide) (by decide)⟩

/-- Witness for C10 at a concrete factory. -/
theorem getMaxCardApduLengthSupported_pos_witness :
    0 < getMaxCardApduLengthSupported sampleFactory :=
  getMaxCardApduLengthSupported_pos sampleFactory
